import Mathlib

/-!
Verification development for the fsoc platform API client
(`platform/api/call.go`): a shallow embedding of the request
execution / retry / error-normalization engine, with theorems about
its behavior.

Modelling conventions:
* Go byte slices are modelled as Lean `String`s (the byte content).
* A response body is either well-formed JSON (a `Json` value, the
  result `encoding/json` would parse) or `malformed` raw text
  (which includes the empty body, since `json.Unmarshal` fails on
  empty input).
* Machine integers (HTTP status codes) are `Nat`; the Problem status
  field (a Go `int`) is `Int`.
* Effects of external collaborators (the network, the login
  procedure, the filesystem, the local-auth header augmentation)
  are supplied by an explicit environment record.
-/

namespace Fsoc

/-- A parsed JSON value, as produced by Go `encoding/json` for a
well-formed document (numbers restricted to integers, which covers
all inputs appearing in this development). -/
inductive Json where
  | null : Json
  | bool : Bool → Json
  | num : Int → Json
  | str : String → Json
  | arr : List Json → Json
  | obj : List (String × Json) → Json

/-- A fully-buffered HTTP response body: either well-formed JSON
(carrying its parsed value) or malformed raw text. The empty body is
`malformed ""` (empty input is not valid JSON). -/
inductive Body where
  | malformed : String → Body
  | json : Json → Body

/-- Go condition len of respBytes positive, on the model: every well-formed JSON document
is non-empty; a malformed body is non-empty iff its text is. -/
def Body.nonEmpty : Body → Bool
  | .json _ => true
  | .malformed t => !(t == "")

/-- Modelled from the spec: the RFC-7807-style `Problem` struct
(numeric status, human type/title/detail fields); the struct itself is
declared outside the embedded source file. Zero values follow Go. -/
structure Problem where
  type : String := ""
  title : String := ""
  detail : String := ""
  status : Int := 0
deriving DecidableEq

/-- Modelled from the spec: the normalized `HttpStatusError` carrying
a human message, the numeric HTTP status and an optional wrapped
Problem; declared outside the embedded source file. -/
structure HttpStatusError where
  message : String
  statusCode : Nat
  wrapped : Option Problem := none
deriving DecidableEq

/-- Go `net/http.StatusText`, restricted to the status codes exercised
in this development; like Go, unknown codes map to the empty string. -/
def statusText (code : Nat) : String :=
  if code = 200 then "OK"
  else if code = 201 then "Created"
  else if code = 202 then "Accepted"
  else if code = 204 then "No Content"
  else if code = 303 then "See Other"
  else if code = 400 then "Bad Request"
  else if code = 401 then "Unauthorized"
  else if code = 403 then "Forbidden"
  else if code = 404 then "Not Found"
  else if code = 405 then "Method Not Allowed"
  else if code = 409 then "Conflict"
  else if code = 422 then "Unprocessable Entity"
  else if code = 429 then "Too Many Requests"
  else if code = 500 then "Internal Server Error"
  else if code = 502 then "Bad Gateway"
  else if code = 503 then "Service Unavailable"
  else ""

/-- ASCII lower-casing of a character (the fragment of Unicode case
folding relevant to JSON field-name matching here). -/
def lowerChar (c : Char) : Char :=
  if 'A' ≤ c ∧ c ≤ 'Z' then Char.ofNat (c.toNat + 32) else c

/-- ASCII lower-casing of a string. -/
def lowerStr (s : String) : String :=
  String.mk (s.data.map lowerChar)

/-- One decoding step of `json.Unmarshal` into the Problem struct:
assign JSON field `k` with value `v`. Field names match
case-insensitively (Go uses `strings.EqualFold`; modelled with ASCII
lower-casing), unknown fields are ignored, JSON `null` leaves the
field untouched, and a type-mismatched known field fails the decode. -/
def setProblemField (p : Problem) (k : String) (v : Json) : Option Problem :=
  let kl := lowerStr k
  if kl = "type" then
    match v with
    | .str s => some { p with type := s }
    | .null => some p
    | _ => none
  else if kl = "title" then
    match v with
    | .str s => some { p with title := s }
    | .null => some p
    | _ => none
  else if kl = "detail" then
    match v with
    | .str s => some { p with detail := s }
    | .null => some p
    | _ => none
  else if kl = "status" then
    match v with
    | .num n => some { p with status := n }
    | .null => some p
    | _ => none
  else
    some p

/-- Decode a JSON object's fields into a Problem, later duplicate keys
overwriting earlier ones, failing iff some known field type-mismatches
(the overall success/failure of Go `json.Unmarshal` on the object). -/
def decodeProblemObj (fields : List (String × Json)) : Option Problem :=
  fields.foldl (fun acc kv => acc.bind fun p => setProblemField p kv.1 kv.2) (some {})

/-- Go `json.Unmarshal(respBytes, &problem)` on a well-formed JSON
value: an object decodes field-by-field, the literal `null` is a no-op
success leaving the zero struct, and any other JSON shape (array,
string, number, bool) is an `UnmarshalTypeError`. -/
def decodeProblem : Json → Option Problem
  | .null => some {}
  | .obj fields => decodeProblemObj fields
  | _ => none

mutual

/-- Go `fmt.Sprintf("%+v", errobj)` for a decoded generic JSON value
(maps render in field order; Go would sort map keys, which no theorem
in this development depends on). -/
def goFmtV : Json → String
  | .null => "<nil>"
  | .bool b => if b then "true" else "false"
  | .num n => toString n
  | .str s => s
  | .arr xs => "[" ++ goFmtVList xs ++ "]"
  | .obj fs => "map[" ++ goFmtVFields fs ++ "]"

def goFmtVList : List Json → String
  | [] => ""
  | [x] => goFmtV x
  | x :: y :: rest => goFmtV x ++ " " ++ goFmtVList (y :: rest)

def goFmtVFields : List (String × Json) → String
  | [] => ""
  | [(k, v)] => k ++ ":" ++ goFmtV v
  | (k, v) :: f :: rest => k ++ ":" ++ goFmtV v ++ " " ++ goFmtVFields (f :: rest)

end

/-- Function `parseIntoError` (call.go): turn response status + buffered body
into an `HttpStatusError`, trying Problem decode, then generic JSON,
then plain text; an empty body in the text fallback is replaced by the
standard status text. Total by construction — it always produces a
Status Error. -/
def parseIntoError (statusCode : Nat) (body : Body) : HttpStatusError :=
  match body with
  | .json v =>
    match decodeProblem v with
    | some p =>
      let p1 := if p.status = 0 then { p with status := (statusCode : Int) } else p
      { message := statusText statusCode, statusCode := statusCode, wrapped := some p1 }
    | none =>
      { message := "status " ++ toString statusCode ++ ", error response: " ++ goFmtV v,
        statusCode := statusCode, wrapped := none }
  | .malformed text =>
    let t := if text = "" then statusText statusCode else text
    { message := "status: " ++ toString statusCode ++ " " ++ t,
      statusCode := statusCode, wrapped := none }

/-- Function `abbreviateString` (call.go): trim `s` to at most `n` runes,
replacing the last kept rune by an ellipsis when truncation occurs.
Go runes of a string are the `Char`s of the Lean `String` (`s.data`);
the Go `uint` length bound is a `Nat`. -/
def abbreviateString (s : String) (n : Nat) : String :=
  if s.data.length ≤ n then s
  else if n = 0 then ""
  else if n = 1 then "…"
  else String.mk ((s.data.set (n - 1) '…').take n)

/-- Function `urlDisplayPath` (call.go), on an already-split (path, rawQuery)
pair of the request URL. -/
def urlDisplayPath (path rawQuery : String) : String :=
  let s := abbreviateString path 50
  if rawQuery = "" then s else s ++ "?" ++ abbreviateString rawQuery 6

-- --- Request builder ------------------------------------------------------

/-- The dynamic (`any`) request body passed by a caller:
`nil`, a `[]byte` (content as a string of bytes), any other
JSON-marshalable Go value (represented by its JSON image), or a value
on which `json.Marshal` fails. -/
inductive GoBody where
  | nil : GoBody
  | bytes : String → GoBody
  | jsonVal : Json → GoBody
  | unmarshalable : GoBody

def GoBody.isNil : GoBody → Bool
  | .nil => true
  | _ => false

/-- The standard base64 alphabet. -/
def base64Chars : List Char :=
  "ABCDEFGHIJKLMNOPQRSTUVWXYZabcdefghijklmnopqrstuvwxyz0123456789+/".data

def base64Char (n : Nat) : Char := base64Chars.getD n 'A'

/-- Base64-encode a byte list, three bytes at a time. -/
def base64Chunks : List Nat → String
  | [] => ""
  | [a] => String.mk [base64Char (a / 4), base64Char (a % 4 * 16)] ++ "=="
  | [a, b] =>
    String.mk [base64Char (a / 4), base64Char (a % 4 * 16 + b / 16),
      base64Char (b % 16 * 4)] ++ "="
  | a :: b :: c :: rest =>
    String.mk [base64Char (a / 4), base64Char (a % 4 * 16 + b / 16),
      base64Char (b % 16 * 4 + c / 64), base64Char (c % 64)] ++ base64Chunks rest

/-- Base64 of the UTF-8 bytes of a string (Go `json.Marshal` encodes a
`[]byte` as a base64 JSON string). -/
def base64Encode (s : String) : String :=
  base64Chunks (s.toUTF8.toList.map UInt8.toNat)

/-- Escape a string for JSON output (quote and backslash; control
character escapes are omitted, nothing in this development depends on
the rendering of such strings). -/
def escapeJSONString (s : String) : String :=
  String.mk (s.data.foldr
    (fun c acc =>
      if c = '"' then '\\' :: '"' :: acc
      else if c = '\\' then '\\' :: '\\' :: acc
      else c :: acc) [])

mutual

/-- Compact JSON serialization of a `Json` value, as `json.Marshal`
produces (object fields in order, modelling Go struct field order). -/
def renderJson : Json → String
  | .null => "null"
  | .bool b => if b then "true" else "false"
  | .num n => toString n
  | .str s => "\"" ++ escapeJSONString s ++ "\""
  | .arr xs => "[" ++ renderJsonList xs ++ "]"
  | .obj fs => "\x7b" ++ renderJsonFields fs ++ "\x7d"

def renderJsonList : List Json → String
  | [] => ""
  | [x] => renderJson x
  | x :: y :: rest => renderJson x ++ "," ++ renderJsonList (y :: rest)

def renderJsonFields : List (String × Json) → String
  | [] => ""
  | [(k, v)] => "\"" ++ escapeJSONString k ++ "\":" ++ renderJson v
  | (k, v) :: f :: rest =>
    "\"" ++ escapeJSONString k ++ "\":" ++ renderJson v ++ "," ++ renderJsonFields (f :: rest)

end

/-- Go `json.Marshal` on the dynamic body value: `nil` gives `null`,
a `[]byte` gives its base64 JSON string, another marshalable value its
JSON serialization; `none` is a marshaling failure. -/
def goMarshal : GoBody → Option String
  | .nil => some "null"
  | .bytes bs => some (renderJson (.str (base64Encode bs)))
  | .jsonVal v => some (renderJson v)
  | .unmarshalable => none

/-- Lookup in a Go `map[string]string` (the nil map is `[]`; a missing
key yields the zero string, as in Go). -/
def hdrGet (hs : List (String × String)) (k : String) : String :=
  match hs.find? (fun kv => kv.1 == k) with
  | some kv => kv.2
  | none => ""

/-- The `jsonify` condition of `prepareHTTPRequest`: a body is present
and no explicit `Content-Type` header is supplied. -/
def jsonifyOf (body : GoBody) (hs : List (String × String)) : Bool :=
  !body.isNil && (hdrGet hs "Content-Type" == "")

/-- The Go dynamic type name used in the `%T` of the body-contract
error message (abstracted for the model's body representations). -/
def goTypeName : GoBody → String
  | .nil => "<nil>"
  | .bytes _ => "[]uint8"
  | .jsonVal _ => "jsonValue"
  | .unmarshalable => "unmarshalable"

def bodyTypeErrMsg (b : GoBody) : String :=
  "(bug) HTTP request body type must be []byte if Content-Type is provided, found "
    ++ goTypeName b ++ " instead"

/-- The body-reader preparation of `prepareHTTPRequest` (call.go):
when jsonifying, marshal the body to JSON (marshal failure is a fatal
construction error); otherwise a non-nil body must be a `[]byte`,
whose bytes are passed through unmodified. -/
def prepareBody (body : GoBody) (jsonify : Bool) : Except String (Option String) :=
  if jsonify then
    match goMarshal body with
    | none => .error "failed to marshal body data"
    | some s => .ok (some s)
  else
    match body with
    | .nil => .ok none
    | .bytes bs => .ok (some bs)
    | _ => .error (bodyTypeErrMsg body)

/-- Split a character list at the first `?`, keeping the remainder
when one is found. -/
def cutChars : List Char → List Char × Option (List Char)
  | [] => ([], none)
  | '?' :: rest => ([], some rest)
  | c :: rest =>
    let pr := cutChars rest
    (c :: pr.1, pr.2)

/-- Go `strings.Cut(path, "?")`: split at the first `?`; when absent the
second component is empty (and, as in Go, `path?` yields an empty
second component that is still distinguished upstream only by the
found flag, which the caller ignores). -/
def cutQuery (s : String) : String × String :=
  match cutChars s.data with
  | (p, none) => (String.mk p, "")
  | (p, some q) => (String.mk p, String.mk q)

def endsWithSlash (s : String) : Bool :=
  match s.data.getLast? with
  | some '/' => true
  | _ => false

def startsWithSlash (s : String) : Bool :=
  match s.data with
  | '/' :: _ => true
  | _ => false

/-- Go `url.JoinPath(base, p)` restricted to slash joining (the path
cleaning and escaping of the Go function are not modelled; no claim
depends on the URL string). -/
def joinPath (base p : String) : String :=
  if p = "" then base
  else if endsWithSlash base then
    if startsWithSlash p then base ++ String.mk p.data.tail else base ++ p
  else
    if startsWithSlash p then base ++ p else base ++ "/" ++ p

/-- The auth method selected in the config context; only `local`
changes request preparation. -/
inductive AuthMethod where
  | local : AuthMethod
  | other : AuthMethod
deriving DecidableEq

/-- The parts of the config context (access profile) that
`prepareHTTPRequest`/`httpRequest` read: base URL, cached bearer
token, chosen auth method. -/
structure Config where
  url : String
  token : String
  authMethod : AuthMethod
deriving DecidableEq

/-- The synthesized (default) headers added by `prepareHTTPRequest`
before local-auth and explicit headers, in order of addition:
`Content-Type` when jsonifying (merge-patch variant for PATCH),
`Accept: application/json` unless explicitly given, and
`Authorization: Bearer <token>` unless explicitly given. -/
def synthHeaders (cfg : Config) (method : String) (jsonify : Bool)
    (hs : List (String × String)) : List (String × String) :=
  (if jsonify then
    [("Content-Type",
      if method = "PATCH" then "application/merge-patch+json" else "application/json")]
   else [])
  ++ (if hdrGet hs "Accept" = "" then [("Accept", "application/json")] else [])
  ++ (if hdrGet hs "Authorization" = "" then
        [("Authorization", "Bearer " ++ cfg.token)]
      else [])

/-- A fully-formed outbound request: method, full URL, optional body
bytes, and the header list in order of addition (`http.Header.Add`
appends; a later entry with the same key does not erase an earlier
one, but the builder skips synthesizing a header whose key is
explicitly supplied). -/
structure PreparedRequest where
  method : String
  url : String
  body : Option String
  headers : List (String × String)
deriving DecidableEq

/-- A received HTTP response, fully buffered: status code, the value
of `resp.Header.Get("content-type")`, the body, and the full response
header map (to be copied back into the caller's options). -/
structure Response where
  status : Nat
  contentType : String
  body : Body
  headers : List (String × List String)

/-- The environment of external collaborators of one `httpRequest`
call: the network (`resp k` is the response to send attempt `k`,
`none` a transport failure — a failed `client.Do` or a failed body
read), the login procedure (`loginResult k` is the token produced by
the `k`-th login, `none` a login failure), whether
`json.Unmarshal(respBytes, out)` succeeds for the caller's output type
on a given parsed body, whether `os.WriteFile` succeeds, and the
headers added by `AddLocalAuthReqHeaders` (modelled from the spec:
method-specific local-auth headers, the augmentation itself lives
outside the embedded source file). -/
structure Env where
  resp : Nat → Option Response
  loginResult : Nat → Option String
  decodeOutOK : Json → Bool
  fileWriteOK : Bool
  localAuthHeaders : List (String × String)

/-- Function `prepareHTTPRequest` (call.go): build the outbound request or fail
with a construction error. The `--curl` diagnostic branch is not
modelled (it cannot fail for the bodies representable here and does
not alter the request); the `url.Parse`/`url.JoinPath` failures are
not modelled (the former is fatal-to-process, the latter unreachable
for a parseable base URL). -/
def prepareHTTPRequest (env : Env) (cfg : Config) (method path : String)
    (body : GoBody) (hs : List (String × String)) : Except String PreparedRequest :=
  let jsonify := jsonifyOf body hs
  match prepareBody body jsonify with
  | .error e => .error e
  | .ok bodyStr =>
    let pq := cutQuery path
    let joined := joinPath cfg.url pq.1
    let fullPath := if pq.2 = "" then joined else joined ++ "?" ++ pq.2
    .ok
      { method := method
        url := fullPath
        body := bodyStr
        headers :=
          synthHeaders cfg method jsonify hs
            ++ (if cfg.authMethod = AuthMethod.local then env.localAuthHeaders else [])
            ++ hs }

-- --- Request executor -----------------------------------------------------

/-- Caller-supplied call options (`Options` in call.go). `Headers` is
the explicit header map (nil map modelled as `[]`), `ResponseHeaders`
the out-parameter slot written back on success, `ExpectedErrors` the
statuses logged at Info severity (log severity only — no behavioral
branch, so no theorem mentions it), `Quiet` the spinner suppression
(spinner activity is not modelled). The Go `Context` field carries
cancellation only and is subsumed by transport failure in `Env.resp`. -/
structure Options where
  headers : List (String × String) := []
  responseHeaders : Option (List (String × List String)) := none
  expectedErrors : List Nat := []
  quiet : Bool := false
deriving DecidableEq

/-- The error taxonomy of one call, mirroring the distinct `return`
sites of `httpRequest`: a login failure (initial or refresh), a
construction error from `prepareHTTPRequest`, a transport-level
failure, a Status Error from `parseIntoError`, the missing
`solutionFileName` contract violation, a file write failure, and a
JSON decode failure of a success response. -/
inductive CallError where
  | loginErr : CallError
  | constructionErr : String → CallError
  | transportErr : CallError
  | statusErr : HttpStatusError → CallError
  | fileNameMissing : String → CallError
  | fileWriteErr : CallError
  | decodeErr : CallError
deriving DecidableEq

/-- Observable events of a call, in order of occurrence: a login
(initial or refresh), a send attempt reaching the network, a JSON
decode attempt on a success body, a file write attempt. -/
inductive Event where
  | login : Event
  | send : Event
  | decodeAttempt : Event
  | fileWrite : Event
deriving DecidableEq

/-- The result of one `httpRequest` call: the returned error (`none`
is Go's nil return), whether the caller's output slot was successfully
populated by JSON decode, whether the file was successfully written,
the response headers written back into the options (set only on the
success exit), the caller's options struct as visible after the call
(`none` when the caller passed nil options — the replacement struct is
discarded), and the event list. -/
structure CallResult where
  err : Option CallError := none
  outPopulated : Bool := false
  fileWritten : Bool := false
  respHeadersSet : Option (List (String × List String)) := none
  callerOptions : Option Options := none
  events : List Event := []

/-- One send attempt: build the request, then perform the network
round trip (attempt number `k`), producing a response or an error plus
the events of the attempt. -/
def runAttempt (env : Env) (cfg : Config) (method path : String) (body : GoBody)
    (hs : List (String × String)) (k : Nat) : Except CallError Response × List Event :=
  match prepareHTTPRequest env cfg method path body hs with
  | .error msg => (.error (.constructionErr msg), [])
  | .ok _ =>
    match env.resp k with
    | none => (.error .transportErr, [Event.send])
    | some r => (.ok r, [Event.send])

/-- Response classification and success-path body handling of
`httpRequest` (call.go lines 290-338): non-2xx/non-303 statuses go to
`parseIntoError`; on success, octet-stream/zip bodies are saved to the
file named by the `solutionFileName` options header, other non-empty
non-303 bodies are JSON-decoded into the output slot (never for
DELETE), and the response headers are copied back on the success
exit. -/
def classify (env : Env) (method : String) (opts : Options) (r : Response) : CallResult :=
  if r.status / 100 ≠ 2 ∧ r.status ≠ 303 then
    { err := some (.statusErr (parseIntoError r.status r.body)) }
  else if method ≠ "DELETE" then
    if r.contentType = "application/octet-stream" ∨ r.contentType = "application/zip" then
      if hdrGet opts.headers "solutionFileName" = "" then
        { err := some (.fileNameMissing r.contentType) }
      else if env.fileWriteOK then
        { fileWritten := true, respHeadersSet := some r.headers, events := [Event.fileWrite] }
      else
        { err := some .fileWriteErr, events := [Event.fileWrite] }
    else if r.body.nonEmpty ∧ r.status ≠ 303 then
      match r.body with
      | .json v =>
        if env.decodeOutOK v then
          { outPopulated := true, respHeadersSet := some r.headers,
            events := [Event.decodeAttempt] }
        else
          { err := some .decodeErr, events := [Event.decodeAttempt] }
      | .malformed _ => { err := some .decodeErr, events := [Event.decodeAttempt] }
    else
      { respHeadersSet := some r.headers }
  else
    { respHeadersSet := some r.headers }

/-- The body of `httpRequest` from the first send attempt on (the
nil-options replacement and the initial login already done): send,
refresh-and-retry exactly once on a 403 first response (`nl` is the
index of the next login call), then classify the final response. -/
def httpRequestMain (env : Env) (cfg : Config) (method path : String) (body : GoBody)
    (opts : Options) (nl : Nat) : CallResult :=
  match runAttempt env cfg method path body opts.headers 0 with
  | (.error e, ev) => { err := some e, events := ev }
  | (.ok r1, ev1) =>
    if r1.status = 403 then
      match env.loginResult nl with
      | none => { err := some .loginErr, events := ev1 ++ [Event.login] }
      | some tok =>
        match runAttempt env { cfg with token := tok } method path body opts.headers 1 with
        | (.error e, ev2) => { err := some e, events := ev1 ++ [Event.login] ++ ev2 }
        | (.ok r2, ev2) =>
          let c := classify env method opts r2
          { c with events := ev1 ++ [Event.login] ++ ev2 ++ c.events }
    else
      let c := classify env method opts r1
      { c with events := ev1 ++ c.events }

/-- The caller-visible options struct after the call: nil options stay
invisible (the replacement struct is local to the call); otherwise the
caller's struct, with `ResponseHeaders` overwritten when the call
reached the success exit. -/
def optionsAfter (options : Option Options) (opts : Options)
    (set : Option (List (String × List String))) : Option Options :=
  match options with
  | none => none
  | some _ =>
    some (match set with
      | none => opts
      | some h => { opts with responseHeaders := some h })

/-- The nil-options replacement at the top of `httpRequest`: nil
becomes a fresh empty `Options`. -/
def optsOf (options : Option Options) : Options :=
  match options with
  | none => {}
  | some o => o

/-- Function `httpRequest` (call.go): replace nil options, log in when no token
is cached, then run the send/retry/classify flow. -/
def httpRequest (env : Env) (cfg : Config) (method path : String) (body : GoBody)
    (options : Option Options) : CallResult :=
  let opts := optsOf options
  let core : CallResult :=
    if cfg.token = "" then
      match env.loginResult 0 with
      | none => { err := some .loginErr, events := [Event.login] }
      | some tok =>
        let r := httpRequestMain env { cfg with token := tok } method path body opts 1
        { r with events := Event.login :: r.events }
    else
      httpRequestMain env cfg method path body opts 0
  { core with callerOptions := optionsAfter options opts core.respHeadersSet }

-- --- Public verbs ---------------------------------------------------------

/-- Verb `JSONGet` (call.go): GET with JSON response. The Go `out any`
destination is represented by `Env.decodeOutOK`. -/
def JSONGet (env : Env) (cfg : Config) (path : String) (options : Option Options) : CallResult :=
  httpRequest env cfg "GET" path .nil options

/-- Verb `JSONDelete` (call.go): DELETE with JSON response. -/
def JSONDelete (env : Env) (cfg : Config) (path : String) (options : Option Options) : CallResult :=
  httpRequest env cfg "DELETE" path .nil options

/-- Verb `JSONPost` (call.go): POST with JSON command and response. -/
def JSONPost (env : Env) (cfg : Config) (path : String) (body : GoBody)
    (options : Option Options) : CallResult :=
  httpRequest env cfg "POST" path body options

/-- Verb `HTTPPost` (call.go): POST with caller-provided raw `[]byte` body. -/
def HTTPPost (env : Env) (cfg : Config) (path : String) (body : String)
    (options : Option Options) : CallResult :=
  httpRequest env cfg "POST" path (.bytes body) options

/-- Verb `HTTPGet` (call.go): GET with caller-provided Accept/Content-Type. -/
def HTTPGet (env : Env) (cfg : Config) (path : String) (options : Option Options) : CallResult :=
  httpRequest env cfg "GET" path .nil options

/-- Verb `JSONPut` (call.go): PUT with JSON command and response. -/
def JSONPut (env : Env) (cfg : Config) (path : String) (body : GoBody)
    (options : Option Options) : CallResult :=
  httpRequest env cfg "PUT" path body options

/-- Verb `JSONPatch` (call.go): PATCH with JSON command and response. -/
def JSONPatch (env : Env) (cfg : Config) (path : String) (body : GoBody)
    (options : Option Options) : CallResult :=
  httpRequest env cfg "PATCH" path body options

/-- Verb `JSONRequest` (call.go): explicit-method JSON request. -/
def JSONRequest (env : Env) (cfg : Config) (method path : String) (body : GoBody)
    (options : Option Options) : CallResult :=
  httpRequest env cfg method path body options

-- --- Helper lemmas --------------------------------------------------------

/-- Setting index `i` and taking `i + 1` elements keeps the first `i`
elements and ends with the new element. -/
theorem take_set_concat {α : Type} (l : List α) (i : Nat) (a : α) (h : i < l.length) :
    (l.set i a).take (i + 1) = l.take i ++ [a] := by
  induction l generalizing i with
  | nil => simp at h
  | cons x xs ih =>
    cases i with
    | zero => simp
    | succ j =>
      simp only [List.set_cons_succ, List.take_succ_cons, List.cons_append, List.cons.injEq,
        true_and]
      exact ih j (by simpa using h)

/-- Success of `prepareHTTPRequest` does not depend on the cached
token (only the synthesized Authorization value does). -/
theorem prepare_token_ok (env : Env) (cfg : Config) (m p : String) (b : GoBody)
    (hs : List (String × String)) (t : String)
    (h : ∃ r, prepareHTTPRequest env cfg m p b hs = Except.ok r) :
    ∃ r, prepareHTTPRequest env { cfg with token := t } m p b hs = Except.ok r := by
  obtain ⟨r, hr⟩ := h
  unfold prepareHTTPRequest at hr ⊢
  cases hpb : prepareBody b (jsonifyOf b hs) <;> simp [hpb] at hr ⊢

-- --- Claim theorems -------------------------------------------------------

/-- C8: `abbreviateString s n` returns `s` unchanged when its rune
count is at most `n`; otherwise (truncating case) it returns the empty
string for `n = 0`, the bare ellipsis for `n = 1`, and for `n ≥ 2` a
string of exactly `n` runes whose last rune is the ellipsis and whose
first `n - 1` runes are the first `n - 1` runes of `s`. -/
theorem abbreviateString_spec (s : String) (n : Nat) :
    (s.data.length ≤ n → abbreviateString s n = s) ∧
    (n < s.data.length →
      (n = 0 → abbreviateString s n = "") ∧
      (n = 1 → abbreviateString s n = "…") ∧
      (2 ≤ n →
        (abbreviateString s n).data.length = n ∧
        (abbreviateString s n).data.getLast? = some '…' ∧
        (abbreviateString s n).data.take (n - 1) = s.data.take (n - 1))) := by
  constructor
  · intro h
    unfold abbreviateString
    rw [if_pos h]
  · intro hlt
    have hnotle : ¬ s.data.length ≤ n := by omega
    refine ⟨?_, ?_, ?_⟩
    · intro h0
      subst h0
      unfold abbreviateString
      rw [if_neg hnotle, if_pos rfl]
    · intro h1
      subst h1
      unfold abbreviateString
      rw [if_neg hnotle, if_neg (by decide), if_pos rfl]
    · intro h2
      have h0 : n ≠ 0 := by omega
      have h1 : n ≠ 1 := by omega
      have hkey : (s.data.set (n - 1) '…').take n = s.data.take (n - 1) ++ ['…'] := by
        have hs := take_set_concat s.data (n - 1) '…' (by omega)
        have hn : n - 1 + 1 = n := by omega
        rw [hn] at hs
        exact hs
      have hdata : (abbreviateString s n).data = s.data.take (n - 1) ++ ['…'] := by
        simp only [abbreviateString, if_neg hnotle, if_neg h0, if_neg h1]
        exact hkey
      refine ⟨?_, ?_, ?_⟩
      · rw [hdata]
        simp only [List.length_append, List.length_take, List.length_cons, List.length_nil]
        omega
      · rw [hdata]
        exact List.getLast?_concat _
      · rw [hdata]
        have hlen : n - 1 ≤ (s.data.take (n - 1)).length := by
          simp only [List.length_take]
          omega
        rw [List.take_append_of_le_length hlen, List.take_take]
        simp

/-- C3: `parseIntoError` is total (it is a Lean function into
`HttpStatusError`, so it always produces a Status Error and never
fails itself) and classifies in cascade order: a body decodable as a
Problem yields a wrapped Problem with the standard status text as
message; a well-formed JSON body that is not Problem-decodable yields
the generic rendering with no wrapper; a malformed body falls back to
plain text, substituting the standard HTTP status text when the body
is empty. -/
theorem parseIntoError_cascade (code : Nat) (b : Body) :
    (parseIntoError code b).statusCode = code ∧
    (∀ v pr, b = Body.json v → decodeProblem v = some pr →
      (parseIntoError code b).wrapped =
        some (if pr.status = 0 then { pr with status := (code : Int) } else pr) ∧
      (parseIntoError code b).message = statusText code) ∧
    (∀ v, b = Body.json v → decodeProblem v = none →
      (parseIntoError code b).wrapped = none ∧
      (parseIntoError code b).message =
        "status " ++ toString code ++ ", error response: " ++ goFmtV v) ∧
    (∀ t, b = Body.malformed t →
      (parseIntoError code b).wrapped = none ∧
      (parseIntoError code b).message =
        "status: " ++ toString code ++ " " ++ (if t = "" then statusText code else t)) := by
  cases b with
  | malformed t =>
    refine ⟨rfl, ?_, ?_, ?_⟩
    · intro v pr hv hdec
      cases hv
    · intro v hv hdec
      cases hv
    · intro t2 ht
      cases ht
      exact ⟨rfl, rfl⟩
  | json v =>
    cases hd : decodeProblem v with
    | none =>
      refine ⟨by simp [parseIntoError, hd], ?_, ?_, ?_⟩
      · intro w pr hw hdec
        cases hw
        rw [hd] at hdec
        cases hdec
      · intro w hw hdec
        cases hw
        simp [parseIntoError, hd]
      · intro t ht
        cases ht
    | some pr =>
      refine ⟨by simp [parseIntoError, hd], ?_, ?_, ?_⟩
      · intro w pr2 hw hdec
        cases hw
        rw [hd] at hdec
        injection hdec with heq
        subst heq
        constructor
        · simp [parseIntoError, hd]
        · simp [parseIntoError, hd]
      · intro w hw hdec
        cases hw
        rw [hd] at hdec
        cases hdec
      · intro t ht
        cases ht

/-- C4: when the error body decodes as a Problem carrying a non-zero
status `n`, the returned Status Error wraps that Problem with status
`n`; when the decoded status is zero (including when the field is
absent, since the Go zero value is 0), the wrapped Problem's status is
the HTTP response's status code and the message is the standard HTTP
status text. -/
theorem problemStatus_spec (code : Nat) (v : Json) (pr : Problem)
    (hdec : decodeProblem v = some pr) :
    (pr.status ≠ 0 →
      (parseIntoError code (Body.json v)).wrapped = some pr) ∧
    (pr.status = 0 →
      (parseIntoError code (Body.json v)).wrapped = some { pr with status := (code : Int) } ∧
      (parseIntoError code (Body.json v)).message = statusText code) := by
  constructor
  · intro hne
    simp [parseIntoError, hdec, hne]
  · intro h0
    simp [parseIntoError, hdec, h0]

def probV : Json := Json.obj [("status", Json.num 404), ("title", Json.str "not found")]

def probP : Problem := { title := "not found", status := 404 }

/-- Witness for C4 at the body `{"status":404,"title":"not found"}`
received with HTTP status 403. -/
theorem problemStatus_spec_witness :
    decodeProblem probV = some probP ∧
    ((probP.status ≠ 0 →
      (parseIntoError 403 (Body.json probV)).wrapped = some probP) ∧
     (probP.status = 0 →
      (parseIntoError 403 (Body.json probV)).wrapped = some { probP with status := (403 : Int) } ∧
      (parseIntoError 403 (Body.json probV)).message = statusText 403)) :=
  ⟨rfl, problemStatus_spec 403 probV probP rfl⟩

/-- C9 counterexample: the body `{"status":"forbidden"}` is a
well-formed JSON object, yet the permissive Problem decode fails on
the type-mismatched `status` field (Go `json.Unmarshal` reports an
`UnmarshalTypeError` for a string in an `int` field), so the generic
branch is reached and no Problem is wrapped — refuting the claim that
the Problem decode succeeds for every JSON object. -/
theorem problemDecode_objMismatch_cex :
    (parseIntoError 500 (Body.json (Json.obj [("status", Json.str "forbidden")]))).wrapped
      = none := by rfl

/-- C9 (amended): a Status Error wraps a Problem exactly when the
Problem decode succeeds, which holds for the JSON literal `null` and
for every JSON object whose recognized fields (type/title/detail/
status) have compatible types where present — including the empty
object; the generic-JSON branch is reached for all other well-formed
JSON values: arrays, strings, numbers, booleans, and objects with a
type-mismatched recognized field. -/
theorem problemDecode_branching (code : Nat) (v : Json) :
    ((parseIntoError code (Body.json v)).wrapped.isSome ↔ (decodeProblem v).isSome) ∧
    decodeProblem Json.null = some {} ∧
    decodeProblem (Json.obj []) = some {} ∧
    (∀ bv, decodeProblem (Json.bool bv) = none) ∧
    (∀ nv, decodeProblem (Json.num nv) = none) ∧
    (∀ sv, decodeProblem (Json.str sv) = none) ∧
    (∀ xs, decodeProblem (Json.arr xs) = none) := by
  refine ⟨?_, rfl, rfl, fun _ => rfl, fun _ => rfl, fun _ => rfl, fun _ => rfl⟩
  cases hd : decodeProblem v <;> simp [parseIntoError, hd]

/-- C5: with an explicit non-empty `Content-Type` header and a
non-nil body, the builder accepts exactly the `[]byte` bodies, sending
the caller's bytes unmodified (no JSON serialization), and fails with
the body-contract construction error for every other body shape. -/
theorem explicitContentType_body (env : Env) (cfg : Config) (m p : String)
    (hs : List (String × String)) (bs : String) (v : Json)
    (hct : hdrGet hs "Content-Type" ≠ "") :
    (∃ req, prepareHTTPRequest env cfg m p (GoBody.bytes bs) hs = Except.ok req ∧
      req.body = some bs) ∧
    prepareHTTPRequest env cfg m p (GoBody.jsonVal v) hs
      = Except.error (bodyTypeErrMsg (GoBody.jsonVal v)) ∧
    prepareHTTPRequest env cfg m p GoBody.unmarshalable hs
      = Except.error (bodyTypeErrMsg GoBody.unmarshalable) := by
  have hbeq : (hdrGet hs "Content-Type" == "") = false := by
    simpa using hct
  refine ⟨?_, ?_, ?_⟩
  · simp only [prepareHTTPRequest, prepareBody, jsonifyOf, GoBody.isNil, hbeq,
      Bool.and_false, Bool.false_eq_true, if_false]
    exact ⟨_, rfl, rfl⟩
  · simp only [prepareHTTPRequest, prepareBody, jsonifyOf, GoBody.isNil, hbeq,
      Bool.and_false, Bool.false_eq_true, if_false]
  · simp only [prepareHTTPRequest, prepareBody, jsonifyOf, GoBody.isNil, hbeq,
      Bool.and_false, Bool.false_eq_true, if_false]

def envW : Env :=
  { resp := fun _ => none
    loginResult := fun _ => none
    decodeOutOK := fun _ => false
    fileWriteOK := false
    localAuthHeaders := [("appd-pid", "1"), ("appd-pty", "2")] }

def cfgW : Config := { url := "https://tenant.example.com", token := "tk0", authMethod := .other }

def hsCT : List (String × String) := [("Content-Type", "text/plain")]

/-- Witness for C5 with explicit `Content-Type: text/plain`. -/
theorem explicitContentType_body_witness :
    hdrGet hsCT "Content-Type" ≠ "" ∧
    ((∃ req, prepareHTTPRequest envW cfgW "POST" "pth" (GoBody.bytes "raw-bytes") hsCT
        = Except.ok req ∧ req.body = some "raw-bytes") ∧
     prepareHTTPRequest envW cfgW "POST" "pth" (GoBody.jsonVal Json.null) hsCT
       = Except.error (bodyTypeErrMsg (GoBody.jsonVal Json.null)) ∧
     prepareHTTPRequest envW cfgW "POST" "pth" GoBody.unmarshalable hsCT
       = Except.error (bodyTypeErrMsg GoBody.unmarshalable)) :=
  ⟨by decide, explicitContentType_body envW cfgW "POST" "pth" hsCT "raw-bytes" Json.null
    (by decide)⟩

/-- The header-precedence property of C6 for a built request: the
request's header list is, in order of addition (lowest to highest
precedence), the synthesized headers (Content-Type when jsonifying,
with the merge-patch variant for PATCH; Accept; Authorization — each
skipped when the caller supplies that key explicitly), then the
local-auth headers exactly when the auth method is local, then the
caller's explicit headers; an explicitly supplied Content-Type,
Accept, or Authorization excludes the synthesized one entirely, so
the caller's value wins. -/
def headerPrecedenceProp (env : Env) (cfg : Config) (m : String) (b : GoBody)
    (hs : List (String × String)) (req : PreparedRequest) : Prop :=
  req.headers =
    synthHeaders cfg m (jsonifyOf b hs) hs
      ++ (if cfg.authMethod = AuthMethod.local then env.localAuthHeaders else [])
      ++ hs ∧
  (hdrGet hs "Content-Type" ≠ "" →
    ∀ val, ("Content-Type", val) ∉ synthHeaders cfg m (jsonifyOf b hs) hs) ∧
  (hdrGet hs "Accept" ≠ "" →
    ∀ val, ("Accept", val) ∉ synthHeaders cfg m (jsonifyOf b hs) hs) ∧
  (hdrGet hs "Authorization" ≠ "" →
    ∀ val, ("Authorization", val) ∉ synthHeaders cfg m (jsonifyOf b hs) hs) ∧
  (jsonifyOf b hs = true →
    ("Content-Type",
      if m = "PATCH" then "application/merge-patch+json" else "application/json")
      ∈ synthHeaders cfg m (jsonifyOf b hs) hs) ∧
  (hdrGet hs "Accept" = "" →
    ("Accept", "application/json") ∈ synthHeaders cfg m (jsonifyOf b hs) hs) ∧
  (hdrGet hs "Authorization" = "" →
    ("Authorization", "Bearer " ++ cfg.token) ∈ synthHeaders cfg m (jsonifyOf b hs) hs) ∧
  (cfg.authMethod ≠ AuthMethod.local →
    req.headers = synthHeaders cfg m (jsonifyOf b hs) hs ++ hs)

/-- C6: every request built by `prepareHTTPRequest` satisfies the
header-precedence property: synthesized Content-Type / Accept /
Authorization lowest, local-auth headers above them exactly when the
auth method is local, caller-supplied explicit headers last — and an
explicit header suppresses the synthesized header of the same key. -/
theorem headerPrecedence (env : Env) (cfg : Config) (m p : String) (b : GoBody)
    (hs : List (String × String)) (req : PreparedRequest)
    (hok : prepareHTTPRequest env cfg m p b hs = Except.ok req) :
    headerPrecedenceProp env cfg m b hs req := by
  have hhdrs : req.headers =
      synthHeaders cfg m (jsonifyOf b hs) hs
        ++ (if cfg.authMethod = AuthMethod.local then env.localAuthHeaders else [])
        ++ hs := by
    unfold prepareHTTPRequest at hok
    cases hpb : prepareBody b (jsonifyOf b hs) <;> simp [hpb] at hok
    rw [← hok]
    simp
  refine ⟨hhdrs, ?_, ?_, ?_, ?_, ?_, ?_, ?_⟩
  · intro hct val
    have hj : jsonifyOf b hs = false := by
      unfold jsonifyOf
      have : (hdrGet hs "Content-Type" == "") = false := by simpa using hct
      simp [this]
    simp only [synthHeaders, hj, Bool.false_eq_true, if_false, List.nil_append]
    intro hmem
    rcases List.mem_append.mp hmem with h1 | h2
    · split at h1 <;> simp_all
    · split at h2 <;> simp_all
  · intro hac val
    simp only [synthHeaders]
    intro hmem
    rcases List.mem_append.mp hmem with h1 | h2
    · rcases List.mem_append.mp h1 with h3 | h4
      · split at h3 <;> simp_all
      · split at h4 <;> simp_all
    · split at h2 <;> simp_all
  · intro hau val
    simp only [synthHeaders]
    intro hmem
    rcases List.mem_append.mp hmem with h1 | h2
    · rcases List.mem_append.mp h1 with h3 | h4
      · split at h3 <;> simp_all
      · split at h4 <;> simp_all
    · split at h2 <;> simp_all
  · intro hj
    simp [synthHeaders, hj]
  · intro hac
    simp [synthHeaders, hac]
  · intro hau
    simp [synthHeaders, hau]
  · intro hnl
    simp [hhdrs, if_neg hnl]

def hsW : List (String × String) := [("Accept", "text/html"), ("X-Trace", "on")]

def reqW : PreparedRequest :=
  { method := "GET"
    url := "https://tenant.example.com/pth"
    body := none
    headers := [("Accept", "text/html"), ("X-Trace", "on")] }

/-- Witness for C6: a GET with no body and explicit Accept header. -/
theorem headerPrecedence_witness :
    prepareHTTPRequest envW cfgW "GET" "pth" GoBody.nil hsW
      = Except.ok { reqW with
          headers := [("Authorization", "Bearer tk0"),
            ("Accept", "text/html"), ("X-Trace", "on")] } ∧
    headerPrecedenceProp envW cfgW "GET" GoBody.nil hsW
      { reqW with
        headers := [("Authorization", "Bearer tk0"),
          ("Accept", "text/html"), ("X-Trace", "on")] } :=
  ⟨rfl, headerPrecedence envW cfgW "GET" "pth" GoBody.nil hsW _ rfl⟩

-- --- Executor lemmas ------------------------------------------------------

/-- Classification never reports success together with a populated
output or written file, and never both output and file. -/
theorem classify_excl (env : Env) (m : String) (opts : Options) (r : Response) :
    ((classify env m opts r).err.isSome →
      (classify env m opts r).outPopulated = false ∧
      (classify env m opts r).fileWritten = false) ∧
    ¬((classify env m opts r).outPopulated = true ∧
      (classify env m opts r).fileWritten = true) := by
  unfold classify
  repeat' split
  all_goals simp_all

/-- The send/retry/classify flow never reports an error together with
a populated output or written file, and never both output and file. -/
theorem httpRequestMain_excl (env : Env) (cfg : Config) (m p : String) (b : GoBody)
    (opts : Options) (nl : Nat) :
    ((httpRequestMain env cfg m p b opts nl).err.isSome →
      (httpRequestMain env cfg m p b opts nl).outPopulated = false ∧
      (httpRequestMain env cfg m p b opts nl).fileWritten = false) ∧
    ¬((httpRequestMain env cfg m p b opts nl).outPopulated = true ∧
      (httpRequestMain env cfg m p b opts nl).fileWritten = true) := by
  unfold httpRequestMain
  split
  · simp
  · split
    · split
      · simp
      · split
        · simp
        · simpa using classify_excl env m opts _
    · simpa using classify_excl env m opts _

/-- When the request builds, the first attempt gets a non-403
response: the flow is one send followed by classification. -/
theorem httpRequestMain_no_retry (env : Env) (cfg : Config) (m p : String) (b : GoBody)
    (opts : Options) (req : PreparedRequest) (r1 : Response)
    (hpr : prepareHTTPRequest env cfg m p b opts.headers = Except.ok req)
    (h0 : env.resp 0 = some r1) (hne : r1.status ≠ 403) :
    httpRequestMain env cfg m p b opts 0 =
      { classify env m opts r1 with
        events := Event.send :: (classify env m opts r1).events } := by
  unfold httpRequestMain runAttempt
  simp [hpr, h0, hne]

/-- When the request builds, the first attempt gets a 403, the refresh
login succeeds and the retry gets a response: the flow is
send-login-send followed by classification of the second response. -/
theorem httpRequestMain_retry (env : Env) (cfg : Config) (m p : String) (b : GoBody)
    (opts : Options) (req req2 : PreparedRequest) (r1 r2 : Response) (tok : String)
    (hpr : prepareHTTPRequest env cfg m p b opts.headers = Except.ok req)
    (h0 : env.resp 0 = some r1) (h403 : r1.status = 403)
    (hlog : env.loginResult 0 = some tok)
    (hpr2 : prepareHTTPRequest env { cfg with token := tok } m p b opts.headers
      = Except.ok req2)
    (h1 : env.resp 1 = some r2) :
    httpRequestMain env cfg m p b opts 0 =
      { classify env m opts r2 with
        events := Event.send :: Event.login :: Event.send ::
          (classify env m opts r2).events } := by
  unfold httpRequestMain runAttempt
  simp [hpr, h0, h403, hlog, hpr2, h1]

/-- A response with status 303 is classified as success-path: no
Status Error and no JSON decode attempt. -/
theorem classify_303 (env : Env) (m : String) (opts : Options) (r : Response)
    (h : r.status = 303) :
    (∀ e, (classify env m opts r).err ≠ some (CallError.statusErr e)) ∧
    Event.decodeAttempt ∉ (classify env m opts r).events := by
  unfold classify
  rw [h]
  repeat' split
  all_goals simp_all

-- --- Executor claim theorems ----------------------------------------------

/-- C1: when the first attempt's response has status 403, exactly one
credential refresh (login) and exactly one retry are performed; when
the retried attempt also returns 403, that second 403 comes back as a
Status Error (via `parseIntoError`) with no further refresh or retry
(two sends and one login in total). Hypotheses: a token is cached (so
the one login is the refresh, not the initial login), the request
builds, the refresh login succeeds, and both attempts reach the
network. -/
theorem forbiddenRetry (env : Env) (cfg : Config) (m p : String) (b : GoBody)
    (options : Option Options) (r1 : Response) (tok : String) (r2 : Response)
    (htok : cfg.token ≠ "")
    (h0 : env.resp 0 = some r1) (h403 : r1.status = 403)
    (hlog : env.loginResult 0 = some tok)
    (h1 : env.resp 1 = some r2) (h403b : r2.status = 403)
    (hprep : ∃ req, prepareHTTPRequest env cfg m p b (optsOf options).headers
      = Except.ok req) :
    (httpRequest env cfg m p b options).events.count Event.send = 2 ∧
    (httpRequest env cfg m p b options).events.count Event.login = 1 ∧
    (httpRequest env cfg m p b options).err
      = some (CallError.statusErr (parseIntoError r2.status r2.body)) := by
  obtain ⟨req, hreq⟩ := hprep
  obtain ⟨req2, hreq2⟩ :=
    prepare_token_ok env cfg m p b (optsOf options).headers tok ⟨req, hreq⟩
  have hmain : httpRequestMain env cfg m p b (optsOf options) 0 =
      { err := some (CallError.statusErr (parseIntoError r2.status r2.body)),
        events := [Event.send, Event.login, Event.send] } := by
    unfold httpRequestMain runAttempt classify
    simp [hreq, h0, hreq2, h1, hlog, h403, h403b]
  simp only [httpRequest]
  rw [if_neg htok, hmain]
  exact ⟨rfl, rfl, rfl⟩

def r403a : Response :=
  { status := 403, contentType := "", body := Body.malformed "denied", headers := [] }

def r403b : Response :=
  { status := 403, contentType := "", body := Body.malformed "still denied", headers := [] }

def envRetry : Env :=
  { resp := fun k => if k = 0 then some r403a else some r403b
    loginResult := fun _ => some "fresh-token"
    decodeOutOK := fun _ => true
    fileWriteOK := true
    localAuthHeaders := [] }

/-- Witness for C1: both attempts return 403; the call performs two
sends and one login and surfaces the second 403 as a Status Error. -/
theorem forbiddenRetry_witness :
    (cfgW.token ≠ "" ∧ envRetry.resp 0 = some r403a ∧ r403a.status = 403 ∧
     envRetry.loginResult 0 = some "fresh-token" ∧
     envRetry.resp 1 = some r403b ∧ r403b.status = 403 ∧
     (∃ req, prepareHTTPRequest envRetry cfgW "GET" "pth" GoBody.nil
        (optsOf none).headers = Except.ok req)) ∧
    ((httpRequest envRetry cfgW "GET" "pth" GoBody.nil none).events.count Event.send = 2 ∧
     (httpRequest envRetry cfgW "GET" "pth" GoBody.nil none).events.count Event.login = 1 ∧
     (httpRequest envRetry cfgW "GET" "pth" GoBody.nil none).err
       = some (CallError.statusErr (parseIntoError r403b.status r403b.body))) :=
  ⟨⟨by decide, rfl, rfl, rfl, rfl, rfl, ⟨_, rfl⟩⟩,
    forbiddenRetry envRetry cfgW "GET" "pth" GoBody.nil none r403a "fresh-token" r403b
      (by decide) rfl rfl rfl rfl rfl ⟨_, rfl⟩⟩

def envEmptyBody : Env :=
  { resp := fun _ => some
      { status := 200, contentType := "", body := Body.malformed "", headers := [("Server", ["x"])] }
    loginResult := fun _ => none
    decodeOutOK := fun _ => true
    fileWriteOK := true
    localAuthHeaders := [] }

/-- C2 counterexample: a GET whose response is 200 with an empty body
returns a nil error while neither populating the output slot nor
writing a file — the call yields "neither" of the claim's two exclusive
outcomes, refuting "never neither" as stated. -/
theorem callOutcome_neither_cex :
    (httpRequest envEmptyBody cfgW "GET" "pth" GoBody.nil none).err = none ∧
    (httpRequest envEmptyBody cfgW "GET" "pth" GoBody.nil none).outPopulated = false ∧
    (httpRequest envEmptyBody cfgW "GET" "pth" GoBody.nil none).fileWritten = false :=
  ⟨rfl, rfl, rfl⟩

/-- C2 (amended): a call never yields both an error and a successful
result — a non-nil error comes with no successfully decoded output and
no written file, and a call never both populates the output and writes
a file; a nil error, however, does not always come with output (DELETE
calls, 303 responses, empty bodies and file-typed bodies skip the JSON
decode and succeed without populating the output slot). -/
theorem callOutcome_exclusive (env : Env) (cfg : Config) (m p : String) (b : GoBody)
    (options : Option Options) :
    ((httpRequest env cfg m p b options).err.isSome →
      (httpRequest env cfg m p b options).outPopulated = false ∧
      (httpRequest env cfg m p b options).fileWritten = false) ∧
    ¬((httpRequest env cfg m p b options).outPopulated = true ∧
      (httpRequest env cfg m p b options).fileWritten = true) := by
  simp only [httpRequest]
  split
  · split
    · simp
    · simpa using httpRequestMain_excl env _ m p b (optsOf options) 1
  · simpa using httpRequestMain_excl env cfg m p b (optsOf options) 0

/-- The classified-response property of C7: no Status Error is
returned (errors of other kinds — construction, transport, file
contract — remain possible) and no JSON decode of the body is ever
attempted. -/
def noStatusErrNoDecode (res : CallResult) : Prop :=
  (∀ e, res.err ≠ some (CallError.statusErr e)) ∧ Event.decodeAttempt ∉ res.events

/-- C7: a response with HTTP status exactly 303 — whether on the first
attempt or on the retry after a 403 — is treated as success: the call
produces no Status Error and never attempts a JSON decode of the body,
regardless of the body's content. -/
theorem seeOther_success (env : Env) (cfg : Config) (m p : String) (b : GoBody)
    (options : Option Options) (r1 : Response)
    (htok : cfg.token ≠ "")
    (h0 : env.resp 0 = some r1)
    (h303 : r1.status = 303 ∨
      (r1.status = 403 ∧ ∃ tok, env.loginResult 0 = some tok ∧
        ∃ r2, env.resp 1 = some r2 ∧ r2.status = 303)) :
    noStatusErrNoDecode (httpRequest env cfg m p b options) := by
  have key : noStatusErrNoDecode (httpRequestMain env cfg m p b (optsOf options) 0) := by
    cases hpr : prepareHTTPRequest env cfg m p b (optsOf options).headers with
    | error msg =>
      unfold httpRequestMain runAttempt
      simp [hpr, noStatusErrNoDecode]
    | ok req =>
      rcases h303 with h | ⟨h403, tok, hlog, r2, h1, h303b⟩
      · have hne : r1.status ≠ 403 := by rw [h]; decide
        rw [httpRequestMain_no_retry env cfg m p b (optsOf options) req r1 hpr h0 hne]
        have hc := classify_303 env m (optsOf options) r1 h
        refine ⟨fun e => by simpa using hc.1 e, ?_⟩
        simpa using hc.2
      · obtain ⟨req2, hreq2⟩ :=
          prepare_token_ok env cfg m p b (optsOf options).headers tok ⟨req, hpr⟩
        rw [httpRequestMain_retry env cfg m p b (optsOf options) req req2 r1 r2 tok
          hpr h0 h403 hlog hreq2 h1]
        have hc := classify_303 env m (optsOf options) r2 h303b
        refine ⟨fun e => by simpa using hc.1 e, ?_⟩
        simpa using hc.2
  simp only [httpRequest]
  rw [if_neg htok]
  refine ⟨fun e => by simpa using key.1 e, ?_⟩
  simpa using key.2

def r303 : Response :=
  { status := 303, contentType := "",
    body := Body.malformed "<html>not json</html>", headers := [] }

def env303 : Env :=
  { resp := fun _ => some r303
    loginResult := fun _ => none
    decodeOutOK := fun _ => false
    fileWriteOK := true
    localAuthHeaders := [] }

/-- Witness for C7: a 303 response with a non-JSON body succeeds with
no Status Error and no decode attempt. -/
theorem seeOther_success_witness :
    (cfgW.token ≠ "" ∧ env303.resp 0 = some r303 ∧ r303.status = 303) ∧
    noStatusErrNoDecode (httpRequest env303 cfgW "PUT" "obj/id1" GoBody.nil none) :=
  ⟨⟨by decide, rfl, rfl⟩,
    seeOther_success env303 cfgW "PUT" "obj/id1" GoBody.nil none r303
      (by decide) rfl (Or.inl rfl)⟩

/-- Outcome equality of two call results on every caller-relevant
component except the caller-visible options struct. -/
def sameOutcome (a b : CallResult) : Prop :=
  a.err = b.err ∧ a.outPopulated = b.outPopulated ∧ a.fileWritten = b.fileWritten ∧
  a.respHeadersSet = b.respHeadersSet ∧ a.events = b.events

/-- C10: every public verb accepts nil options (the model is a total
function — nil is replaced by a fresh empty `Options`, so no nil
dereference can occur): the call behaves identically to one with an
empty options value, and the response headers written back into the
replacement struct are invisible to the caller (the caller-visible
options remain `none`). -/
theorem nilOptions_safe (env : Env) (cfg : Config) (m p : String) (b : GoBody)
    (bs : String) :
    (sameOutcome (httpRequest env cfg m p b none) (httpRequest env cfg m p b (some {})) ∧
      (httpRequest env cfg m p b none).callerOptions = none) ∧
    (sameOutcome (JSONGet env cfg p none) (JSONGet env cfg p (some {})) ∧
      (JSONGet env cfg p none).callerOptions = none) ∧
    (sameOutcome (JSONDelete env cfg p none) (JSONDelete env cfg p (some {})) ∧
      (JSONDelete env cfg p none).callerOptions = none) ∧
    (sameOutcome (JSONPost env cfg p b none) (JSONPost env cfg p b (some {})) ∧
      (JSONPost env cfg p b none).callerOptions = none) ∧
    (sameOutcome (HTTPPost env cfg p bs none) (HTTPPost env cfg p bs (some {})) ∧
      (HTTPPost env cfg p bs none).callerOptions = none) ∧
    (sameOutcome (HTTPGet env cfg p none) (HTTPGet env cfg p (some {})) ∧
      (HTTPGet env cfg p none).callerOptions = none) ∧
    (sameOutcome (JSONPut env cfg p b none) (JSONPut env cfg p b (some {})) ∧
      (JSONPut env cfg p b none).callerOptions = none) ∧
    (sameOutcome (JSONPatch env cfg p b none) (JSONPatch env cfg p b (some {})) ∧
      (JSONPatch env cfg p b none).callerOptions = none) ∧
    (sameOutcome (JSONRequest env cfg m p b none) (JSONRequest env cfg m p b (some {})) ∧
      (JSONRequest env cfg m p b none).callerOptions = none) := by
  repeat' apply And.intro
  all_goals rfl

end Fsoc
